import Mathlib

/-!
Verification of the test-case value model, document parser, case extractor
and verdict logic of the dmn-tck-rs runner.

The Rust sources are embedded shallowly:

* `src/model.rs` — the value model (`Value`, `Component`, `List`,
  `ValueType`, `TestCases`, `TestCase`, `InputNode`, `ResultNode`) and the
  XML parser (`parse_from_string` and its helpers).  XML documents are
  represented by the `XmlNode` tree below; the external `roxmltree`
  tokenizer is abstracted as an `Except`-valued input to
  `parse_from_string`.
* `src/dto.rs` — the wire DTOs (`SimpleDto`, `ComponentDto`, `ListDto`,
  `ValueDto`) and the `From` conversions from model values to DTOs.
* `src/main.rs` — the per-result-node outcome decision inside
  `execute_tests` (the comparison of the actual DTO returned by the
  evaluation endpoint against the DTO encoding of the expected value).

Rust `Result<T, RunnerError>` becomes `Except RunnerError T`; Rust
`Option` becomes `Option`; struct field order and evaluation order of the
`?` operator are preserved.
-/

namespace DmnTckRs

/-! ## Value model, from `src/model.rs`

Rust declares `struct Value` (the scalar), `struct Component`,
`struct List` and the enum `ValueType` with variants
`Simple(Value)`, `Components(Vec<Component>)`, `List(List)`.
The Rust struct `List` is named `ListValue` here to avoid clashing with
Lean's `List`.  `Component` and `ListValue` are single-constructor
inductives because they are mutually recursive with `ValueType`. -/

structure Value where
  typ : Option String
  text : Option String
  nil : Bool
deriving DecidableEq, Repr

mutual

inductive ValueType where
  | Simple (v : Value) : ValueType
  | Components (cs : List Component) : ValueType
  | List (l : ListValue) : ValueType
deriving Repr

inductive Component where
  | mk (name : Option String) (value : Option ValueType) (nil : Bool) : Component
deriving Repr

inductive ListValue where
  | mk (items : List ValueType) (nil : Bool) : ListValue
deriving Repr

end

def Component.name : Component → Option String
  | .mk n _ _ => n

def Component.value : Component → Option ValueType
  | .mk _ v _ => v

def Component.nil : Component → Bool
  | .mk _ _ b => b

def ListValue.items : ListValue → List ValueType
  | .mk i _ => i

def ListValue.nil : ListValue → Bool
  | .mk _ b => b

/-- Rust `impl Default for List`: `Self { items: vec![], nil: true }`. -/
def ListValue.default : ListValue := .mk [] true

/-! ## Wire DTOs, from `src/dto.rs` -/

structure SimpleDto where
  typ : Option String
  text : Option String
  nil : Bool
deriving DecidableEq, Repr

mutual

inductive ValueDto where
  | mk (simple : Option SimpleDto) (components : Option (List ComponentDto))
      (list : Option ListDto) : ValueDto
deriving Repr

inductive ComponentDto where
  | mk (name : Option String) (value : Option ValueDto) (nil : Bool) : ComponentDto
deriving Repr

inductive ListDto where
  | mk (items : List ValueDto) (nil : Bool) : ListDto
deriving Repr

end

def ValueDto.simple : ValueDto → Option SimpleDto
  | .mk s _ _ => s

def ValueDto.components : ValueDto → Option (List ComponentDto)
  | .mk _ c _ => c

def ValueDto.list : ValueDto → Option ListDto
  | .mk _ _ l => l

/-- Rust `impl Default for ValueDto`: all three fields `None`. -/
def ValueDto.defaultDto : ValueDto := .mk none none none

/-- Rust `impl From<&Simple> for SimpleDto` (the scalar struct is named
`Value` in the snapshot's `model.rs` and `Simple` in `dto.rs`). -/
def simpleDtoOfValue (v : Value) : SimpleDto :=
  { typ := v.typ, text := v.text, nil := v.nil }

mutual

/-- Rust `impl From<&Value> for ValueDto` in `src/dto.rs`: each enum
variant fills exactly one of the three DTO fields, the other two stay at
their `Default` value `None`. -/
def valueDtoOfValue : ValueType → ValueDto
  | .Simple v => .mk (some (simpleDtoOfValue v)) none none
  | .Components cs => .mk none (some (componentDtosOfComponents cs)) none
  | .List l => .mk none none (some (listDtoOfList l))

/-- Rust `components.iter().map(ComponentDto::from).collect()`. -/
def componentDtosOfComponents : List Component → List ComponentDto
  | [] => []
  | c :: cs => componentDtoOfComponent c :: componentDtosOfComponents cs

/-- Rust `impl From<&Component> for ComponentDto`. -/
def componentDtoOfComponent : Component → ComponentDto
  | .mk name value nil => .mk name (optionValueDtoOfValue value) nil

/-- Rust `match &component.value { Some(value) => Some(value.into()), _ => None }`. -/
def optionValueDtoOfValue : Option ValueType → Option ValueDto
  | none => none
  | some v => some (valueDtoOfValue v)

/-- Rust `impl From<&List> for ListDto`. -/
def listDtoOfList : ListValue → ListDto
  | .mk items nil => .mk (itemDtosOfItems items) nil

/-- Rust `list.items.iter().map(ValueDto::from).collect()`. -/
def itemDtosOfItems : List ValueType → List ValueDto
  | [] => []
  | v :: vs => valueDtoOfValue v :: itemDtosOfItems vs

end

/-! ## Structural equality on DTOs

Rust derives `PartialEq` for `ValueDto`, `SimpleDto`, `ComponentDto` and
`ListDto`: field-by-field structural equality, with `Option` comparing
`None = None` and `Some x = Some y` iff `x = y`, `Vec` comparing
element-wise in order, and `String` comparing literally.  `execute_tests`
in `src/main.rs` uses exactly this `==` (`actual_dto == expected_dto`). -/

mutual

def valueDtoBeq : ValueDto → ValueDto → Bool
  | .mk s1 c1 l1, .mk s2 c2 l2 =>
    decide (s1 = s2) && optionComponentsBeq c1 c2 && optionListDtoBeq l1 l2

def optionComponentsBeq : Option (List ComponentDto) → Option (List ComponentDto) → Bool
  | none, none => true
  | some cs1, some cs2 => componentDtosBeq cs1 cs2
  | _, _ => false

def componentDtosBeq : List ComponentDto → List ComponentDto → Bool
  | [], [] => true
  | c1 :: cs1, c2 :: cs2 => componentDtoBeq c1 c2 && componentDtosBeq cs1 cs2
  | _, _ => false

def componentDtoBeq : ComponentDto → ComponentDto → Bool
  | .mk n1 v1 b1, .mk n2 v2 b2 =>
    decide (n1 = n2) && optionValueDtoBeq v1 v2 && decide (b1 = b2)

def optionValueDtoBeq : Option ValueDto → Option ValueDto → Bool
  | none, none => true
  | some v1, some v2 => valueDtoBeq v1 v2
  | _, _ => false

def optionListDtoBeq : Option ListDto → Option ListDto → Bool
  | none, none => true
  | some l1, some l2 => listDtoBeq l1 l2
  | _, _ => false

def listDtoBeq : ListDto → ListDto → Bool
  | .mk i1 b1, .mk i2 b2 => valueDtosBeq i1 i2 && decide (b1 = b2)

def valueDtosBeq : List ValueDto → List ValueDto → Bool
  | [], [] => true
  | v1 :: vs1, v2 :: vs2 => valueDtoBeq v1 v2 && valueDtosBeq vs1 vs2
  | _, _ => false

end

mutual

/-- The derived structural equality test agrees with propositional
equality on `ValueDto`. -/
def valueDtoBeq_iff_eq : (a b : ValueDto) → (valueDtoBeq a b = true ↔ a = b)
  | .mk s1 c1 l1, .mk s2 c2 l2 => by
    have h1 := optionComponentsBeq_iff_eq c1 c2
    have h2 := optionListDtoBeq_iff_eq l1 l2
    simp [valueDtoBeq, h1, h2, and_assoc]

def optionComponentsBeq_iff_eq :
    (a b : Option (List ComponentDto)) → (optionComponentsBeq a b = true ↔ a = b)
  | none, none => by simp [optionComponentsBeq]
  | none, some _ => by simp [optionComponentsBeq]
  | some _, none => by simp [optionComponentsBeq]
  | some cs1, some cs2 => by
    have h := componentDtosBeq_iff_eq cs1 cs2
    simp [optionComponentsBeq, h]

def componentDtosBeq_iff_eq :
    (a b : List ComponentDto) → (componentDtosBeq a b = true ↔ a = b)
  | [], [] => by simp [componentDtosBeq]
  | [], _ :: _ => by simp [componentDtosBeq]
  | _ :: _, [] => by simp [componentDtosBeq]
  | c1 :: cs1, c2 :: cs2 => by
    have h1 := componentDtoBeq_iff_eq c1 c2
    have h2 := componentDtosBeq_iff_eq cs1 cs2
    simp [componentDtosBeq, h1, h2]

def componentDtoBeq_iff_eq :
    (a b : ComponentDto) → (componentDtoBeq a b = true ↔ a = b)
  | .mk n1 v1 b1, .mk n2 v2 b2 => by
    have h := optionValueDtoBeq_iff_eq v1 v2
    simp [componentDtoBeq, h, and_assoc]

def optionValueDtoBeq_iff_eq :
    (a b : Option ValueDto) → (optionValueDtoBeq a b = true ↔ a = b)
  | none, none => by simp [optionValueDtoBeq]
  | none, some _ => by simp [optionValueDtoBeq]
  | some _, none => by simp [optionValueDtoBeq]
  | some v1, some v2 => by
    have h := valueDtoBeq_iff_eq v1 v2
    simp [optionValueDtoBeq, h]

def optionListDtoBeq_iff_eq :
    (a b : Option ListDto) → (optionListDtoBeq a b = true ↔ a = b)
  | none, none => by simp [optionListDtoBeq]
  | none, some _ => by simp [optionListDtoBeq]
  | some _, none => by simp [optionListDtoBeq]
  | some l1, some l2 => by
    have h := listDtoBeq_iff_eq l1 l2
    simp [optionListDtoBeq, h]

def listDtoBeq_iff_eq : (a b : ListDto) → (listDtoBeq a b = true ↔ a = b)
  | .mk i1 b1, .mk i2 b2 => by
    have h := valueDtosBeq_iff_eq i1 i2
    simp [listDtoBeq, h]

def valueDtosBeq_iff_eq : (a b : List ValueDto) → (valueDtosBeq a b = true ↔ a = b)
  | [], [] => by simp [valueDtosBeq]
  | [], _ :: _ => by simp [valueDtosBeq]
  | _ :: _, [] => by simp [valueDtosBeq]
  | v1 :: vs1, v2 :: vs2 => by
    have h1 := valueDtoBeq_iff_eq v1 v2
    have h2 := valueDtosBeq_iff_eq vs1 vs2
    simp [valueDtosBeq, h1, h2]

end

/-! ## Wire decoding

The repository contains the encoder (`impl From<&Value> for ValueDto`)
but no Rust decoder back from the wire object to a model value: the wire
object is only deserialized into `ValueDto` by serde and compared there.
The spec (section 6) states that the wire form mirrors the internal
variant exactly and must be round-trip safe, so the decoder is modelled
from the spec. -/

mutual

/-- Modelled from the spec: the wire-to-model decoder, absent from
`src/` (only the model-to-wire encoder exists).  Per section 6 of the
spec the wire object carries at most one of the keys
`simple`, `components`, `list`, mirroring the internal variant exactly:
a `simple` payload decodes to `Simple`, a `components` payload to
`Components`, a `list` payload to `List`, and an empty object decodes to
no value. -/
def valueOfValueDto : ValueDto → Option ValueType
  | .mk (some s) _ _ => some (.Simple { typ := s.typ, text := s.text, nil := s.nil })
  | .mk none (some cs) _ => some (.Components (componentsOfComponentDtos cs))
  | .mk none none (some l) => some (.List (listOfListDto l))
  | .mk none none none => none

/-- Modelled from the spec: element-wise decoding of a `components`
payload, in order. -/
def componentsOfComponentDtos : List ComponentDto → List Component
  | [] => []
  | c :: cs => componentOfComponentDto c :: componentsOfComponentDtos cs

/-- Modelled from the spec: a wire component decodes field by field; a
present but empty value object decodes to an absent value. -/
def componentOfComponentDto : ComponentDto → Component
  | .mk name value nil => .mk name (optionValueOfValueDto value) nil

/-- Modelled from the spec: decoding of an optional wire value. -/
def optionValueOfValueDto : Option ValueDto → Option ValueType
  | none => none
  | some dv => valueOfValueDto dv

/-- Modelled from the spec: a `list` payload decodes item-wise, keeping
the nil flag. -/
def listOfListDto : ListDto → ListValue
  | .mk items nil => .mk (itemsOfItemDtos items) nil

/-- Modelled from the spec: item-wise decoding of a list payload; an
item that decodes to no value is dropped (encoded items always decode). -/
def itemsOfItemDtos : List ValueDto → List ValueType
  | [] => []
  | v :: vs =>
    match valueOfValueDto v with
    | some x => x :: itemsOfItemDtos vs
    | none => itemsOfItemDtos vs

end

mutual

/-- Round-trip on whole values: decoding the encoding of any model value
yields the original value. -/
def roundtrip_value : (v : ValueType) → valueOfValueDto (valueDtoOfValue v) = some v
  | .Simple s => by
    simp [valueDtoOfValue, valueOfValueDto, simpleDtoOfValue]
  | .Components cs => by
    have h := roundtrip_components cs
    simp [valueDtoOfValue, valueOfValueDto, h]
  | .List l => by
    have h := roundtrip_listvalue l
    simp [valueDtoOfValue, valueOfValueDto, h]

/-- Round-trip on component lists. -/
def roundtrip_components :
    (cs : List Component) → componentsOfComponentDtos (componentDtosOfComponents cs) = cs
  | [] => by simp [componentDtosOfComponents, componentsOfComponentDtos]
  | c :: cs => by
    have h1 := roundtrip_component c
    have h2 := roundtrip_components cs
    simp [componentDtosOfComponents, componentsOfComponentDtos, h1, h2]

/-- Round-trip on single components. -/
def roundtrip_component :
    (c : Component) → componentOfComponentDto (componentDtoOfComponent c) = c
  | .mk name value nil => by
    have h := roundtrip_option_value value
    simp [componentDtoOfComponent, componentOfComponentDto, h]

/-- Round-trip on optional values. -/
def roundtrip_option_value :
    (v : Option ValueType) → optionValueOfValueDto (optionValueDtoOfValue v) = v
  | none => by simp [optionValueDtoOfValue, optionValueOfValueDto]
  | some v => by
    have h := roundtrip_value v
    simp [optionValueDtoOfValue, optionValueOfValueDto, h]

/-- Round-trip on list payloads. -/
def roundtrip_listvalue : (l : ListValue) → listOfListDto (listDtoOfList l) = l
  | .mk items nil => by
    have h := roundtrip_items items
    simp [listDtoOfList, listOfListDto, h]

/-- Round-trip on item lists. -/
def roundtrip_items :
    (vs : List ValueType) → itemsOfItemDtos (itemDtosOfItems vs) = vs
  | [] => by simp [itemDtosOfItems, itemsOfItemDtos]
  | v :: vs => by
    have h1 := roundtrip_value v
    have h2 := roundtrip_items vs
    simp [itemDtosOfItems, itemsOfItemDtos, h1, h2]

end

/-- The encoder is injective, a consequence of the round-trip. -/
theorem valueDtoOfValue_injective (a b : ValueType)
    (h : valueDtoOfValue a = valueDtoOfValue b) : a = b := by
  have ha := roundtrip_value a
  have hb := roundtrip_value b
  rw [h, hb] at ha
  exact (Option.some_inj.mp ha).symm

/-! ## XML documents

Shallow embedding of the `roxmltree` node tree as used by
`src/model.rs`: an element has a tag name, namespaced attributes and an
ordered child list; a text node carries its text.  In `roxmltree` a text
node's tag name is the empty string, `Node::attribute(name)` looks up a
non-namespaced attribute, `Node::attribute((ns, name))` a namespaced
one, and `Node::text()` returns the text of the node's first child when
that child is a text node. -/

structure XmlAttr where
  ns : Option String
  name : String
  value : String
deriving DecidableEq, Repr

inductive XmlNode where
  | element (tag : String) (attrs : List XmlAttr) (children : List XmlNode)
  | text (s : String)
deriving Repr

def XmlNode.tagName : XmlNode → String
  | .element t _ _ => t
  | .text _ => ""

def XmlNode.attrsL : XmlNode → List XmlAttr
  | .element _ a _ => a
  | .text _ => []

def XmlNode.childrenL : XmlNode → List XmlNode
  | .element _ _ cs => cs
  | .text _ => []

def XmlNode.textContent : XmlNode → Option String
  | .element _ _ (.text s :: _) => some s
  | _ => none

/-- Lookup of a non-namespaced attribute, `roxmltree`
`Node::attribute(name)`. -/
def attributeNoNs (node : XmlNode) (name : String) : Option String :=
  (node.attrsL.find? (fun a => a.ns == none && a.name == name)).map XmlAttr.value

/-- Lookup of a namespaced attribute, `roxmltree`
`Node::attribute((ns, name))`. -/
def attributeNs (node : XmlNode) (ns name : String) : Option String :=
  (node.attrsL.find? (fun a => a.ns == some ns && a.name == name)).map XmlAttr.value

/-- Rust `node.children().find(|n| n.tag_name().name() == name)`. -/
def childWithTag (node : XmlNode) (name : String) : Option XmlNode :=
  node.childrenL.find? (fun c => c.tagName == name)

/-- Rust `node.children().filter(|n| n.tag_name().name() == name)`. -/
def childrenWithTag (node : XmlNode) (name : String) : List XmlNode :=
  node.childrenL.filter (fun c => c.tagName == name)

/-! ## Tag, attribute and namespace constants from `src/model.rs` -/

abbrev XSI : String := "http://www.w3.org/2001/XMLSchema-instance"

abbrev NODE_COMPONENT : String := "component"
abbrev NODE_COMPUTED : String := "computed"
abbrev NODE_DESCRIPTION : String := "description"
abbrev NODE_EXPECTED : String := "expected"
abbrev NODE_INPUT_NODE : String := "inputNode"
abbrev NODE_ITEM : String := "item"
abbrev NODE_LABELS : String := "labels"
abbrev NODE_LABEL : String := "label"
abbrev NODE_LIST : String := "list"
abbrev NODE_MODEL_NAME : String := "modelName"
abbrev NODE_RESULT_NODE : String := "resultNode"
abbrev NODE_TEST_CASE : String := "testCase"
abbrev NODE_TEST_CASES : String := "testCases"
abbrev NODE_VALUE : String := "value"

abbrev ATTR_CAST : String := "cast"
abbrev ATTR_ERROR_RESULT : String := "errorResult"
abbrev ATTR_ID : String := "id"
abbrev ATTR_INVOCABLE_NAME : String := "invocableName"
abbrev ATTR_NAME : String := "name"
abbrev ATTR_NIL : String := "nil"
abbrev ATTR_TYPE : String := "type"

/-! ## Errors, from `src/errors.rs` -/

inductive RunnerError where
  | IOError (s : String)
  | ReadingFileFailed (s : String)
  | ParsingXMLFailed (s : String)
  | ValidatingXMLFailed (code : Int)
  | XmlExpectedMandatoryNode (s : String)
  | XmlExpectedMandatoryTextContent (s : String)
  | XmlExpectedMandatoryAttribute (s : String)
  | DeploymentFailed (s : String)
deriving DecidableEq, Repr

/-! ## Test-suite model, from `src/model.rs` -/

inductive TestCaseType where
  | Decision
  | BusinessKnowledgeModel
  | DecisionService
deriving DecidableEq, Repr

structure InputNode where
  name : String
  value : Option ValueType
deriving Repr

structure ResultNode where
  name : String
  error_result : Bool
  typ : Option String
  cast : Option String
  expected : Option ValueType
  computed : Option ValueType
deriving Repr

structure TestCase where
  id : Option String
  name : Option String
  typ : TestCaseType
  description : Option String
  invocable_name : Option String
  input_nodes : List InputNode
  result_nodes : List ResultNode
deriving Repr

structure TestCases where
  model_name : Option String
  labels : List String
  test_cases : List TestCase
deriving Repr

/-! ## Parser primitives, from `src/model.rs` -/

/-- Rust `required_attribute`. -/
def required_attribute (node : XmlNode) (attr_name : String) :
    Except RunnerError String :=
  match attributeNoNs node attr_name with
  | some attr_value => .ok attr_value
  | none => .error (.XmlExpectedMandatoryAttribute attr_name)

/-- Rust `optional_attribute`. -/
def optional_attribute (node : XmlNode) (attr_name : String) : Option String :=
  attributeNoNs node attr_name

/-- Rust `optional_xsi_type_attribute`. -/
def optional_xsi_type_attribute (node : XmlNode) : Option String :=
  attributeNs node XSI ATTR_TYPE

/-- Rust `optional_nil_attribute`: true exactly when the node carries
`xsi:nil="true"`. -/
def optional_nil_attribute (node : XmlNode) : Bool :=
  match attributeNs node XSI ATTR_NIL with
  | some v => v == "true"
  | none => false

/-- Rust `required_content`. -/
def required_content (node : XmlNode) : Except RunnerError String :=
  match node.textContent with
  | some text => .ok text
  | none => .error (.XmlExpectedMandatoryTextContent node.tagName)

/-- Rust `optional_content`. -/
def optional_content (node : XmlNode) : Option String :=
  node.textContent

/-- Rust `optional_child_required_content`: the inner
`required_content(..).ok()` converts a missing-text error on a present
child into `None`. -/
def optional_child_required_content (node : XmlNode) (child_name : String) :
    Except RunnerError (Option String) :=
  match childWithTag node child_name with
  | some child_node =>
    .ok (match required_content child_node with
         | .ok text => some text
         | .error _ => none)
  | none => .ok none

/-! ## Value parsing, from `src/model.rs`

`parse_value_type`, `parse_value_components` and `parse_value_list` are
mutually recursive over the XML tree.  The Rust
`for x in node.children().filter(tag)` loops with a fallible body become
list recursions that skip children with other tags; evaluation order and
early error propagation of the `?` operator are preserved. -/

/-- Rust `parse_simple_value`: a `value` child always yields a scalar. -/
def parse_simple_value (node : XmlNode) : Except RunnerError (Option Value) :=
  match childWithTag node NODE_VALUE with
  | some value_node =>
    .ok (some { typ := optional_xsi_type_attribute value_node,
                text := optional_content value_node,
                nil := optional_nil_attribute value_node })
  | none => .ok none

theorem sizeOf_childrenL_lt (n : XmlNode) : sizeOf n.childrenL < sizeOf n := by
  cases n with
  | element t a cs => simp [XmlNode.childrenL]
  | text s =>
    cases s with
    | mk data => simp [XmlNode.childrenL]

theorem sizeOf_childrenL_childWithTag {n c : XmlNode} {t : String}
    (h : childWithTag n t = some c) : sizeOf c.childrenL < sizeOf n := by
  have hmem : c ∈ n.childrenL := by
    simp only [childWithTag] at h
    exact List.mem_of_find?_eq_some h
  have h1 := List.sizeOf_lt_of_mem hmem
  have h2 := sizeOf_childrenL_lt n
  have h3 := sizeOf_childrenL_lt c
  omega

mutual

/-- Rust `parse_value_type`: try the scalar shape, then the composite
shape, then the list shape; an error or a miss from one attempt falls
through to the next (`if let Ok(Some(v))` patterns), and every exit path
is `Ok`. -/
def parse_value_type (node : XmlNode) : Except RunnerError (Option ValueType) :=
  match parse_simple_value node with
  | .ok (some v) => .ok (some (.Simple v))
  | _ =>
    match parse_value_components node with
    | .ok (some c) => .ok (some (.Components c))
    | _ =>
      match parse_value_list node with
      | .ok (some l) => .ok (some (.List l))
      | _ => .ok none
termination_by sizeOf node * 4 + 3
decreasing_by
  all_goals omega

/-- Rust `parse_value_components`: collect a `Component` for every
`component` child; `Some` only when at least one was found. -/
def parse_value_components (node : XmlNode) :
    Except RunnerError (Option (List Component)) := do
  let items ← parse_component_nodes node.childrenL
  if items.isEmpty then .ok none else .ok (some items)
termination_by sizeOf node * 4 + 2
decreasing_by
  have h := sizeOf_childrenL_lt node
  omega

/-- Loop body of `parse_value_components`: children with other tags are
skipped, a `component` child contributes its name attribute, recursively
parsed value and nil flag. -/
def parse_component_nodes (nodes : List XmlNode) :
    Except RunnerError (List Component) :=
  match nodes with
  | [] => .ok []
  | component_node :: rest =>
    if component_node.tagName == NODE_COMPONENT then do
      let value ← parse_value_type component_node
      let comps ← parse_component_nodes rest
      .ok (.mk (optional_attribute component_node ATTR_NAME) value
             (optional_nil_attribute component_node) :: comps)
    else
      parse_component_nodes rest
termination_by sizeOf nodes * 4 + 1
decreasing_by
  all_goals (simp only [List.cons.sizeOf_spec]; omega)

/-- Rust `parse_value_list`: a nil-marked `list` child short-circuits to
the default (empty, nil) list; otherwise the `item` children are parsed
and only a non-empty item collection yields `Some`. -/
def parse_value_list (node : XmlNode) : Except RunnerError (Option ListValue) :=
  match hfind : childWithTag node NODE_LIST with
  | some list_node =>
    if optional_nil_attribute list_node then
      .ok (some ListValue.default)
    else do
      let items ← parse_item_nodes list_node.childrenL
      if items.isEmpty then .ok none else .ok (some (.mk items false))
  | none => .ok none
termination_by sizeOf node * 4 + 2
decreasing_by
  have h := sizeOf_childrenL_childWithTag hfind
  omega

/-- Loop body of `parse_value_list`: children with other tags are
skipped, an `item` child is recursively parsed and kept only when it
yields a value. -/
def parse_item_nodes (nodes : List XmlNode) :
    Except RunnerError (List ValueType) :=
  match nodes with
  | [] => .ok []
  | item_node :: rest =>
    if item_node.tagName == NODE_ITEM then do
      let v ← parse_value_type item_node
      let vs ← parse_item_nodes rest
      match v with
      | some value_type => .ok (value_type :: vs)
      | none => .ok vs
    else
      parse_item_nodes rest
termination_by sizeOf nodes * 4 + 1
decreasing_by
  all_goals (simp only [List.cons.sizeOf_spec]; omega)

end

/-! ## Test-case extraction, from `src/model.rs` -/

/-- Sequential fallible collection: Rust
`for x in xs { items.push(f(x)?) }` — the first error aborts. -/
def mapExcept {α β : Type} (f : α → Except RunnerError β) :
    List α → Except RunnerError (List β)
  | [] => .ok []
  | x :: xs => do
    let y ← f x
    let ys ← mapExcept f xs
    .ok (y :: ys)

/-- Rust `parse_child_value_type`. -/
def parse_child_value_type (node : XmlNode) (child_name : String) :
    Except RunnerError (Option ValueType) :=
  match childWithTag node child_name with
  | some child_node => parse_value_type child_node
  | none => .ok none

/-- Rust `parse_test_case_type`: the literal `bkm` maps to
`BusinessKnowledgeModel`, the literal `decisionService` to
`DecisionService`, anything else — absence included — to `Decision`. -/
def parse_test_case_type (node : XmlNode) : TestCaseType :=
  match optional_attribute node ATTR_TYPE with
  | some "bkm" => .BusinessKnowledgeModel
  | some "decisionService" => .DecisionService
  | _ => .Decision

/-- Loop body of Rust `parse_input_nodes` (the `InputNode` struct
literal built for one `inputNode` child): the name attribute is
mandatory, the value optional. -/
def parse_input_node_entry (input_node : XmlNode) :
    Except RunnerError InputNode := do
  let name ← required_attribute input_node ATTR_NAME
  let value ← parse_value_type input_node
  .ok { name := name, value := value }

/-- Rust `parse_input_nodes`. -/
def parse_input_nodes (node : XmlNode) : Except RunnerError (List InputNode) :=
  mapExcept parse_input_node_entry (childrenWithTag node NODE_INPUT_NODE)

/-- Loop body of Rust `parse_result_nodes` (the `ResultNode` struct
literal built for one `resultNode` child): the name attribute is
mandatory, `errorResult` defaults to false unless the attribute value
is the literal `true`. -/
def parse_result_node_entry (result_node : XmlNode) :
    Except RunnerError ResultNode := do
  let name ← required_attribute result_node ATTR_NAME
  let error_result :=
    match optional_attribute result_node ATTR_ERROR_RESULT with
    | some v => v == "true"
    | none => false
  let expected ← parse_child_value_type result_node NODE_EXPECTED
  let computed ← parse_child_value_type result_node NODE_COMPUTED
  .ok { name := name, error_result := error_result,
        typ := optional_attribute result_node ATTR_TYPE,
        cast := optional_attribute result_node ATTR_CAST,
        expected := expected, computed := computed }

/-- Rust `parse_result_nodes`. -/
def parse_result_nodes (node : XmlNode) : Except RunnerError (List ResultNode) :=
  mapExcept parse_result_node_entry (childrenWithTag node NODE_RESULT_NODE)

/-- Loop body of Rust `parse_test_cases` (the `TestCase` struct literal
built for one `testCase` child). -/
def parse_test_case_entry (test_case_node : XmlNode) :
    Except RunnerError TestCase := do
  let description ← optional_child_required_content test_case_node NODE_DESCRIPTION
  let input_nodes ← parse_input_nodes test_case_node
  let result_nodes ← parse_result_nodes test_case_node
  .ok { id := optional_attribute test_case_node ATTR_ID,
        name := optional_attribute test_case_node ATTR_NAME,
        typ := parse_test_case_type test_case_node,
        description := description,
        invocable_name := optional_attribute test_case_node ATTR_INVOCABLE_NAME,
        input_nodes := input_nodes, result_nodes := result_nodes }

/-- Rust `parse_test_cases`. -/
def parse_test_cases (node : XmlNode) : Except RunnerError (List TestCase) :=
  mapExcept parse_test_case_entry (childrenWithTag node NODE_TEST_CASE)

/-- Rust `parse_labels`: every `label` child of the first `labels` child
must have text content. -/
def parse_labels (node : XmlNode) : Except RunnerError (List String) :=
  match childWithTag node NODE_LABELS with
  | some labels_node => mapExcept required_content (childrenWithTag labels_node NODE_LABEL)
  | none => .ok []

/-- Rust `parse_root_node`. -/
def parse_root_node (node : XmlNode) : Except RunnerError TestCases := do
  let model_name ← optional_child_required_content node NODE_MODEL_NAME
  let labels ← parse_labels node
  let test_cases ← parse_test_cases node
  .ok { model_name := model_name, labels := labels, test_cases := test_cases }

/-- An XML document as produced by a successful `roxmltree` parse: its
single root element. -/
structure XmlDocument where
  root_element : XmlNode

/-- Rust `parse_from_string`: the external `roxmltree` tokenizer is
abstracted as the `Except`-valued argument — `.ok document` for a
well-formed document, `.error reason` when the raw text fails to
tokenize.  A root element other than `testCases` is fatal before any
other node is examined. -/
def parse_from_string (parsed : Except String XmlDocument) :
    Except RunnerError TestCases :=
  match parsed with
  | .ok document =>
    if document.root_element.tagName != NODE_TEST_CASES then
      .error (.XmlExpectedMandatoryNode NODE_TEST_CASES)
    else
      parse_root_node document.root_element
  | .error reason => .error (.ParsingXMLFailed reason)

/-! ## Test execution outcome, from `src/main.rs`

Inside `execute_tests`, after the evaluation endpoint's JSON response
has been deserialized into `ResultDto<ActualValueDto>`, the per-result-
node verdict is decided by the nested `if let` chain at lines 170-191.
`ActualValueDto` is deserialized from the response; from its use
(`data.value`) it carries an optional wire value, the same shape as
`ExpectedValueDto` in `src/dto.rs`.  The outcome constructors correspond
to the `write_line` call sites: `success` to `"SUCCESS"`, and the four
failure constructors to `"FAILURE"` with remarks `"actual <> expected"`,
`"no expected value"`, `"no actual value"`, the joined error details,
and the debug dump respectively. -/

structure ActualValueDto where
  value : Option ValueDto
deriving Repr

/-- Rust `ResultDto<ActualValueDto>` from `src/results.rs`, with each
`ErrorDto` flattened to its `details` string. -/
structure EvalResultDto where
  data : Option ActualValueDto
  errors : Option (List String)
deriving Repr

inductive TestOutcome where
  | success
  | failureActualNeExpected
  | failureNoExpected
  | failureNoActual
  | failureErrors
  | failureOther
deriving DecidableEq, Repr

/-- Rust `execute_tests`, lines 170-191: the decision for one result
node given the deserialized response.  Note that of the whole
`ResultNode` only the `expected` field is consulted. -/
def execute_test_outcome (result_node : ResultNode) (result : EvalResultDto) :
    TestOutcome :=
  match result.data with
  | some data =>
    match data.value with
    | some actual_dto =>
      match result_node.expected with
      | some expected =>
        if valueDtoBeq actual_dto (valueDtoOfValue expected) then .success
        else .failureActualNeExpected
      | none => .failureNoExpected
    | none => .failureNoActual
  | none =>
    if result.errors.isSome then .failureErrors else .failureOther

/-! ## Supporting lemmas -/

@[simp] theorem except_bind_ok {α β : Type} (a : α) (k : α → Except RunnerError β) :
    (Except.ok a >>= k) = k a := rfl

@[simp] theorem except_bind_error {α β : Type} (e : RunnerError)
    (k : α → Except RunnerError β) :
    ((Except.error e : Except RunnerError α) >>= k) =
      (Except.error e : Except RunnerError β) := rfl

theorem except_bind_ok_inv {α β : Type} {m : Except RunnerError α}
    {k : α → Except RunnerError β} {b : β} (h : (m >>= k) = .ok b) :
    ∃ a, m = .ok a ∧ k a = .ok b := by
  cases m with
  | error e => simp at h
  | ok a => exact ⟨a, rfl, by simpa using h⟩

theorem mapExcept_ok_mem {α β : Type} {f : α → Except RunnerError β}
    {xs : List α} {ys : List β} (h : mapExcept f xs = .ok ys) {x : α}
    (hx : x ∈ xs) : ∃ y, f x = .ok y := by
  induction xs generalizing ys with
  | nil => cases hx
  | cons a as ih =>
    simp only [mapExcept] at h
    cases hfa : f a with
    | error e => rw [hfa] at h; simp at h
    | ok y =>
      rw [hfa] at h
      simp only [except_bind_ok] at h
      cases hrest : mapExcept f as with
      | error e => rw [hrest] at h; simp at h
      | ok ys2 =>
        cases hx with
        | head => exact ⟨y, hfa⟩
        | tail _ hmem => exact ih hrest hmem

theorem mapExcept_error_mem {α β : Type} {f : α → Except RunnerError β}
    {xs : List α} {e : RunnerError} (h : mapExcept f xs = .error e) :
    ∃ x ∈ xs, f x = .error e := by
  induction xs with
  | nil => simp [mapExcept] at h
  | cons a as ih =>
    simp only [mapExcept] at h
    cases hfa : f a with
    | error e2 =>
      rw [hfa] at h
      simp only [except_bind_error, Except.error.injEq] at h
      exact ⟨a, List.mem_cons_self a as, by rw [hfa, h]⟩
    | ok y =>
      rw [hfa] at h
      simp only [except_bind_ok] at h
      cases hrest : mapExcept f as with
      | error e2 =>
        rw [hrest] at h
        simp only [except_bind_error, Except.error.injEq] at h
        rcases ih (by rw [hrest, h]) with ⟨x, hmem, hx⟩
        exact ⟨x, List.mem_cons_of_mem a hmem, hx⟩
      | ok ys2 => rw [hrest] at h; simp at h

theorem mapExcept_error_of_mem {α β : Type} {f : α → Except RunnerError β}
    {xs : List α} {e : RunnerError}
    (hall : ∀ x ∈ xs, (∃ y, f x = .ok y) ∨ f x = .error e)
    (hsome : ∃ x ∈ xs, f x = .error e) :
    mapExcept f xs = .error e := by
  induction xs with
  | nil => rcases hsome with ⟨x, hx, _⟩; cases hx
  | cons a as ih =>
    rcases hall a (List.mem_cons_self a as) with ⟨y, hy⟩ | herr
    · rcases hsome with ⟨x, hx, hfx⟩
      cases hx with
      | head => rw [hy] at hfx; cases hfx
      | tail _ hmem =>
        have hrec := ih (fun x hx => hall x (List.mem_cons_of_mem a hx)) ⟨x, hmem, hfx⟩
        simp only [mapExcept]
        rw [hy, except_bind_ok, hrec, except_bind_error]
    · simp only [mapExcept]
      rw [herr, except_bind_error]

theorem parse_value_type_ok (node : XmlNode) :
    ∃ o, parse_value_type node = .ok o := by
  rw [parse_value_type]
  split
  · exact ⟨_, rfl⟩
  · split
    · exact ⟨_, rfl⟩
    · split
      · exact ⟨_, rfl⟩
      · exact ⟨_, rfl⟩

theorem parse_child_value_type_ok (node : XmlNode) (child_name : String) :
    ∃ o, parse_child_value_type node child_name = .ok o := by
  rw [parse_child_value_type]
  split
  · exact parse_value_type_ok _
  · exact ⟨_, rfl⟩

theorem parse_component_nodes_ok (nodes : List XmlNode) :
    ∃ cs, parse_component_nodes nodes = .ok cs := by
  induction nodes with
  | nil => exact ⟨_, by rw [parse_component_nodes]⟩
  | cons c rest ih =>
    rcases ih with ⟨cs, hcs⟩
    rw [parse_component_nodes]
    split
    · rcases parse_value_type_ok c with ⟨v, hv⟩
      rw [hv, except_bind_ok, hcs, except_bind_ok]
      exact ⟨_, rfl⟩
    · exact ⟨cs, hcs⟩

theorem parse_item_nodes_ok (nodes : List XmlNode) :
    ∃ vs, parse_item_nodes nodes = .ok vs := by
  induction nodes with
  | nil => exact ⟨_, by rw [parse_item_nodes]⟩
  | cons c rest ih =>
    rcases ih with ⟨vs, hvs⟩
    rw [parse_item_nodes]
    split
    · rcases parse_value_type_ok c with ⟨v, hv⟩
      rw [hv, except_bind_ok, hvs, except_bind_ok]
      cases v with
      | some value_type => exact ⟨_, rfl⟩
      | none => exact ⟨_, rfl⟩
    · exact ⟨vs, hvs⟩

theorem parse_value_list_ok (node : XmlNode) :
    ∃ o, parse_value_list node = .ok o := by
  rw [parse_value_list]
  split
  · split
    · exact ⟨_, rfl⟩
    · rcases parse_item_nodes_ok _ with ⟨vs, hvs⟩
      rw [hvs, except_bind_ok]
      split
      · exact ⟨_, rfl⟩
      · exact ⟨_, rfl⟩
  · exact ⟨_, rfl⟩

theorem parse_value_components_ok (node : XmlNode) :
    ∃ o, parse_value_components node = .ok o := by
  rw [parse_value_components]
  rcases parse_component_nodes_ok node.childrenL with ⟨cs, hcs⟩
  rw [hcs, except_bind_ok]
  split
  · exact ⟨_, rfl⟩
  · exact ⟨_, rfl⟩

theorem parse_simple_value_of_child {node value_node : XmlNode}
    (h : childWithTag node NODE_VALUE = some value_node) :
    parse_simple_value node =
      .ok (some { typ := optional_xsi_type_attribute value_node,
                  text := optional_content value_node,
                  nil := optional_nil_attribute value_node }) := by
  rw [parse_simple_value, h]

theorem parse_simple_value_no_child {node : XmlNode}
    (h : childWithTag node NODE_VALUE = none) :
    parse_simple_value node = .ok none := by
  rw [parse_simple_value, h]

theorem parse_value_type_of_value_child {node value_node : XmlNode}
    (h : childWithTag node NODE_VALUE = some value_node) :
    parse_value_type node =
      .ok (some (.Simple { typ := optional_xsi_type_attribute value_node,
                           text := optional_content value_node,
                           nil := optional_nil_attribute value_node })) := by
  rw [parse_value_type, parse_simple_value_of_child h]

theorem parse_value_type_components_case {node : XmlNode} {cs : List Component}
    (hv : childWithTag node NODE_VALUE = none)
    (hc : parse_value_components node = .ok (some cs)) :
    parse_value_type node = .ok (some (.Components cs)) := by
  rw [parse_value_type, parse_simple_value_no_child hv, hc]

theorem parse_value_type_list_case {node : XmlNode}
    (hv : childWithTag node NODE_VALUE = none)
    (hc : parse_value_components node = .ok none) :
    (parse_value_list node = .ok none → parse_value_type node = .ok none) ∧
    (∀ l, parse_value_list node = .ok (some l) →
        parse_value_type node = .ok (some (.List l))) := by
  constructor
  · intro hl
    rw [parse_value_type, parse_simple_value_no_child hv, hc, hl]
  · intro l hl
    rw [parse_value_type, parse_simple_value_no_child hv, hc, hl]

theorem parse_component_nodes_all_skip {nodes : List XmlNode}
    (h : ∀ c ∈ nodes, (c.tagName == NODE_COMPONENT) = false) :
    parse_component_nodes nodes = .ok [] := by
  induction nodes with
  | nil => rw [parse_component_nodes]
  | cons a rest ih =>
    rw [parse_component_nodes]
    simp only [h a (List.mem_cons_self a rest), Bool.false_eq_true, if_false]
    exact ih (fun c hc => h c (List.mem_cons_of_mem a hc))

theorem parse_item_nodes_all_skip {nodes : List XmlNode}
    (h : ∀ c ∈ nodes, (c.tagName == NODE_ITEM) = false) :
    parse_item_nodes nodes = .ok [] := by
  induction nodes with
  | nil => rw [parse_item_nodes]
  | cons a rest ih =>
    rw [parse_item_nodes]
    simp only [h a (List.mem_cons_self a rest), Bool.false_eq_true, if_false]
    exact ih (fun c hc => h c (List.mem_cons_of_mem a hc))

theorem parse_component_nodes_nonempty {nodes : List XmlNode}
    (h : ∃ c ∈ nodes, (c.tagName == NODE_COMPONENT) = true) :
    ∃ cs, parse_component_nodes nodes = .ok cs ∧ cs ≠ [] := by
  induction nodes with
  | nil => rcases h with ⟨c, hc, _⟩; cases hc
  | cons a rest ih =>
    by_cases ha : (a.tagName == NODE_COMPONENT) = true
    · rcases parse_value_type_ok a with ⟨v, hv⟩
      rcases parse_component_nodes_ok rest with ⟨cs, hcs⟩
      refine ⟨.mk (optional_attribute a ATTR_NAME) v (optional_nil_attribute a) :: cs,
              ?_, ?_⟩
      · rw [parse_component_nodes]
        simp only [ha, if_true]
        rw [hv, except_bind_ok, hcs, except_bind_ok]
      · simp
    · rcases h with ⟨c, hc, hctag⟩
      cases hc with
      | head => exact absurd hctag ha
      | tail _ hmem =>
        rcases ih ⟨c, hmem, hctag⟩ with ⟨cs, hcs, hne⟩
        refine ⟨cs, ?_, hne⟩
        rw [parse_component_nodes]
        simp only [Bool.not_eq_true] at ha
        simp only [ha, Bool.false_eq_true, if_false]
        exact hcs

theorem parse_value_components_some {node : XmlNode}
    (h : ∃ c ∈ node.childrenL, (c.tagName == NODE_COMPONENT) = true) :
    ∃ cs, parse_value_components node = .ok (some cs) ∧ cs ≠ [] := by
  rcases parse_component_nodes_nonempty h with ⟨cs, hcs, hne⟩
  refine ⟨cs, ?_, hne⟩
  rw [parse_value_components, hcs, except_bind_ok]
  cases cs with
  | nil => exact absurd rfl hne
  | cons c rest => rfl

theorem parse_value_components_none {node : XmlNode}
    (h : ∀ c ∈ node.childrenL, (c.tagName == NODE_COMPONENT) = false) :
    parse_value_components node = .ok none := by
  rw [parse_value_components, parse_component_nodes_all_skip h, except_bind_ok]
  rfl

theorem parse_value_list_nil_marker {node list_node : XmlNode}
    (h1 : childWithTag node NODE_LIST = some list_node)
    (h2 : optional_nil_attribute list_node = true) :
    parse_value_list node = .ok (some (.mk [] true)) := by
  rw [parse_value_list]
  split
  · next ln hfind =>
    rw [h1] at hfind
    injection hfind with he
    subst he
    simp [h2, ListValue.default]
  · next hfind =>
    rw [h1] at hfind
    simp at hfind

theorem parse_value_list_no_child {node : XmlNode}
    (h : childWithTag node NODE_LIST = none) :
    parse_value_list node = .ok none := by
  rw [parse_value_list]
  split
  · next ln hfind =>
    rw [h] at hfind
    simp at hfind
  · rfl

theorem parse_value_list_no_items {node list_node : XmlNode}
    (h1 : childWithTag node NODE_LIST = some list_node)
    (h2 : optional_nil_attribute list_node = false)
    (h3 : childrenWithTag list_node NODE_ITEM = []) :
    parse_value_list node = .ok none := by
  have hall : ∀ c ∈ list_node.childrenL, (c.tagName == NODE_ITEM) = false := by
    intro c hc
    have hmem := List.filter_eq_nil_iff.mp h3 c hc
    simpa using hmem
  have hitems := parse_item_nodes_all_skip hall
  rw [parse_value_list]
  split
  · next ln hfind =>
    rw [h1] at hfind
    injection hfind with he
    subst he
    simp only [h2, Bool.false_eq_true, if_false]
    rw [hitems, except_bind_ok]
    simp
  · rfl

theorem parse_value_list_never_empty_nonnil (node : XmlNode) :
    parse_value_list node ≠ .ok (some (.mk [] false)) := by
  rw [parse_value_list]
  split
  · next ln hfind =>
    split
    · intro hcontra
      simp [ListValue.default] at hcontra
    · rcases parse_item_nodes_ok ln.childrenL with ⟨vs, hvs⟩
      rw [hvs, except_bind_ok]
      split
      · simp
      · next hemp =>
        intro hcontra
        simp only [Except.ok.injEq, Option.some.injEq, ListValue.mk.injEq] at hcontra
        rw [hcontra.1] at hemp
        simp at hemp
  · simp

theorem exists_tag_of_filter_ne_nil {n : XmlNode} {t : String}
    (h : childrenWithTag n t ≠ []) :
    ∃ c ∈ n.childrenL, (c.tagName == t) = true := by
  by_contra hno
  push_neg at hno
  apply h
  simp only [childrenWithTag]
  exact List.filter_eq_nil_iff.mpr (fun a ha => hno a ha)

theorem all_tag_false_of_filter_nil {n : XmlNode} {t : String}
    (h : childrenWithTag n t = []) :
    ∀ c ∈ n.childrenL, (c.tagName == t) = false := by
  intro c hc
  have := List.filter_eq_nil_iff.mp h c hc
  simpa using this

/-! ## Claim C4 -/

/-- C4: a node whose `list` child carries the explicit nil marker parses
to a Sequence with an empty item list and nil true (item parsing is
short-circuited: the statement puts no restriction on the list child's
item children); a node without a `list` child parses to no Sequence at
all, as does a non-nil `list` child without `item` children; and an
empty non-nil Sequence is never produced. -/
theorem C4_nil_vs_absent_sequence :
    (∀ node list_node : XmlNode, childWithTag node NODE_LIST = some list_node →
        optional_nil_attribute list_node = true →
        parse_value_list node = .ok (some (.mk [] true))) ∧
    (∀ node : XmlNode, childWithTag node NODE_LIST = none →
        parse_value_list node = .ok none) ∧
    (∀ node list_node : XmlNode, childWithTag node NODE_LIST = some list_node →
        optional_nil_attribute list_node = false →
        childrenWithTag list_node NODE_ITEM = [] →
        parse_value_list node = .ok none) ∧
    (∀ node : XmlNode, parse_value_list node ≠ .ok (some (.mk [] false))) :=
  ⟨fun _ _ h1 h2 => parse_value_list_nil_marker h1 h2,
   fun _ h => parse_value_list_no_child h,
   fun _ _ h1 h2 h3 => parse_value_list_no_items h1 h2 h3,
   parse_value_list_never_empty_nonnil⟩

/-- Witness for C4: a nil-marked list that even contains an `item` child
still parses to the empty nil Sequence — item parsing is
short-circuited. -/
theorem C4_nil_vs_absent_sequence_witness :
    parse_value_list
      (.element "resultNode" []
        [.element "list" [⟨some XSI, "nil", "true"⟩]
          [.element "item" [] [.element "value" [] [.text "a"]]]]) =
      .ok (some (.mk [] true)) :=
  C4_nil_vs_absent_sequence.1
    (.element "resultNode" []
      [.element "list" [⟨some XSI, "nil", "true"⟩]
        [.element "item" [] [.element "value" [] [.text "a"]]]])
    (.element "list" [⟨some XSI, "nil", "true"⟩]
      [.element "item" [] [.element "value" [] [.text "a"]]])
    (by rfl) (by rfl)

/-! ## Claim C5 -/

/-- C5 counterexample: the claim states that value-shape resolution
returns the first shape whose anchor child is present.  For the node
below the only anchor present is the Sequence anchor (a `list` child),
yet resolution returns no shape at all (`Ok(None)`), because the list
child carries no nil marker and no items.  So the claim, as stated,
fails at this input. -/
theorem C5_counterexample :
    childWithTag (XmlNode.element "inputNode" [] [.element "list" [] []])
        NODE_VALUE = none ∧
    childWithTag (XmlNode.element "inputNode" [] [.element "list" [] []])
        NODE_COMPONENT = none ∧
    childWithTag (XmlNode.element "inputNode" [] [.element "list" [] []])
        NODE_LIST = some (.element "list" [] []) ∧
    parse_value_type (XmlNode.element "inputNode" [] [.element "list" [] []]) =
      .ok none := by
  refine ⟨rfl, rfl, rfl, ?_⟩
  have hv : childWithTag (XmlNode.element "inputNode" [] [.element "list" [] []])
      NODE_VALUE = none := rfl
  have hcomp : parse_value_components
      (XmlNode.element "inputNode" [] [.element "list" [] []]) = .ok none := by
    apply parse_value_components_none
    intro c hc
    simp only [XmlNode.childrenL, List.mem_singleton] at hc
    subst hc
    rfl
  have hlist : parse_value_list
      (XmlNode.element "inputNode" [] [.element "list" [] []]) = .ok none :=
    parse_value_list_no_items rfl rfl rfl
  exact (parse_value_type_list_case hv hcomp).1 hlist

/-- C5 (amended): value-shape resolution attempts Scalar, then
Composite, then Sequence, and stops at the first that yields a shape; a
`value` child immediately wins as Scalar; failing that, a non-empty set
of `component` children wins as Composite; failing both, the result is
exactly what Sequence parsing yields — where presence of the `list`
anchor alone is not enough: it must carry the nil marker or produce at
least one item, otherwise no shape is returned.  A node is never
interpreted as more than one shape. -/
theorem C5_shape_precedence :
    (∀ node value_node : XmlNode, childWithTag node NODE_VALUE = some value_node →
        parse_value_type node =
          .ok (some (.Simple { typ := optional_xsi_type_attribute value_node,
                               text := optional_content value_node,
                               nil := optional_nil_attribute value_node }))) ∧
    (∀ node : XmlNode, childWithTag node NODE_VALUE = none →
        childrenWithTag node NODE_COMPONENT ≠ [] →
        ∃ cs, cs ≠ [] ∧ parse_value_type node = .ok (some (.Components cs))) ∧
    (∀ node : XmlNode, childWithTag node NODE_VALUE = none →
        childrenWithTag node NODE_COMPONENT = [] →
        (parse_value_list node = .ok none → parse_value_type node = .ok none) ∧
        (∀ l, parse_value_list node = .ok (some l) →
            parse_value_type node = .ok (some (.List l)))) ∧
    (∀ node : XmlNode,
        parse_value_type node = .ok none ∨
        (∃ v, parse_value_type node = .ok (some (.Simple v))) ∨
        (∃ cs, parse_value_type node = .ok (some (.Components cs))) ∨
        (∃ l, parse_value_type node = .ok (some (.List l)))) := by
  refine ⟨?_, ?_, ?_, ?_⟩
  · intro node value_node h
    exact parse_value_type_of_value_child h
  · intro node hv hcomp
    rcases parse_value_components_some (exists_tag_of_filter_ne_nil hcomp) with
      ⟨cs, hsome, hne⟩
    exact ⟨cs, hne, parse_value_type_components_case hv hsome⟩
  · intro node hv hcomp
    exact parse_value_type_list_case hv
      (parse_value_components_none (all_tag_false_of_filter_nil hcomp))
  · intro node
    rw [parse_value_type]
    split
    · next v heq => exact Or.inr (Or.inl ⟨v, rfl⟩)
    · split
      · next c heq => exact Or.inr (Or.inr (Or.inl ⟨c, rfl⟩))
      · split
        · next l heq => exact Or.inr (Or.inr (Or.inr ⟨l, rfl⟩))
        · exact Or.inl rfl

/-- Witness for C5 (amended): a node with both a `value` child and a
`component` child resolves as Scalar — the first shape in the precedence
order wins and resolution stops. -/
theorem C5_shape_precedence_witness :
    parse_value_type
      (.element "inputNode" []
        [.element "value" [] [.text "Hello"], .element "component" [] []]) =
      .ok (some (.Simple { typ := none, text := some "Hello", nil := false })) := by
  have h := C5_shape_precedence.1
    (.element "inputNode" []
      [.element "value" [] [.text "Hello"], .element "component" [] []])
    (.element "value" [] [.text "Hello"]) rfl
  simpa using h

theorem required_attribute_missing {c : XmlNode} {a : String}
    (h : attributeNoNs c a = none) :
    required_attribute c a = .error (.XmlExpectedMandatoryAttribute a) := by
  rw [required_attribute, h]

theorem required_attribute_present {c : XmlNode} {a v : String}
    (h : attributeNoNs c a = some v) : required_attribute c a = .ok v := by
  rw [required_attribute, h]

theorem optional_child_required_content_ok (node : XmlNode) (child_name : String) :
    ∃ o, optional_child_required_content node child_name = .ok o := by
  rw [optional_child_required_content]
  split
  · exact ⟨_, rfl⟩
  · exact ⟨_, rfl⟩

theorem required_content_error {n : XmlNode} {e : RunnerError}
    (h : required_content n = .error e) :
    e = .XmlExpectedMandatoryTextContent n.tagName := by
  rw [required_content] at h
  cases htext : n.textContent with
  | some t => rw [htext] at h; cases h
  | none =>
    rw [htext] at h
    injection h with he
    exact he.symm

theorem parse_result_node_entry_missing_name {c : XmlNode}
    (h : attributeNoNs c ATTR_NAME = none) :
    parse_result_node_entry c =
      .error (.XmlExpectedMandatoryAttribute ATTR_NAME) := by
  rw [parse_result_node_entry, required_attribute_missing h]
  rfl

theorem parse_result_node_entry_some_name {c : XmlNode} {v : String}
    (h : attributeNoNs c ATTR_NAME = some v) :
    ∃ rn, parse_result_node_entry c = .ok rn := by
  rw [parse_result_node_entry, required_attribute_present h, except_bind_ok]
  rcases parse_child_value_type_ok c NODE_EXPECTED with ⟨e1, he1⟩
  rw [he1, except_bind_ok]
  rcases parse_child_value_type_ok c NODE_COMPUTED with ⟨e2, he2⟩
  rw [he2, except_bind_ok]
  exact ⟨_, rfl⟩

theorem parse_result_node_entry_cases (c : XmlNode) :
    (∃ rn, parse_result_node_entry c = .ok rn) ∨
    parse_result_node_entry c = .error (.XmlExpectedMandatoryAttribute ATTR_NAME) := by
  cases hattr : attributeNoNs c ATTR_NAME with
  | none => exact Or.inr (parse_result_node_entry_missing_name hattr)
  | some v => exact Or.inl (parse_result_node_entry_some_name hattr)

theorem parse_result_node_entry_error {c : XmlNode} {e : RunnerError}
    (h : parse_result_node_entry c = .error e) :
    e = .XmlExpectedMandatoryAttribute ATTR_NAME := by
  rcases parse_result_node_entry_cases c with ⟨rn, hrn⟩ | herr
  · rw [hrn] at h; cases h
  · rw [herr] at h
    injection h with he
    exact he.symm

theorem parse_input_node_entry_missing_name {c : XmlNode}
    (h : attributeNoNs c ATTR_NAME = none) :
    parse_input_node_entry c =
      .error (.XmlExpectedMandatoryAttribute ATTR_NAME) := by
  rw [parse_input_node_entry, required_attribute_missing h]
  rfl

theorem parse_input_node_entry_some_name {c : XmlNode} {v : String}
    (h : attributeNoNs c ATTR_NAME = some v) :
    ∃ n, parse_input_node_entry c = .ok n := by
  rw [parse_input_node_entry, required_attribute_present h, except_bind_ok]
  rcases parse_value_type_ok c with ⟨o, ho⟩
  rw [ho, except_bind_ok]
  exact ⟨_, rfl⟩

theorem parse_input_node_entry_cases (c : XmlNode) :
    (∃ n, parse_input_node_entry c = .ok n) ∨
    parse_input_node_entry c = .error (.XmlExpectedMandatoryAttribute ATTR_NAME) := by
  cases hattr : attributeNoNs c ATTR_NAME with
  | none => exact Or.inr (parse_input_node_entry_missing_name hattr)
  | some v => exact Or.inl (parse_input_node_entry_some_name hattr)

theorem parse_input_node_entry_error {c : XmlNode} {e : RunnerError}
    (h : parse_input_node_entry c = .error e) :
    e = .XmlExpectedMandatoryAttribute ATTR_NAME := by
  rcases parse_input_node_entry_cases c with ⟨n, hn⟩ | herr
  · rw [hn] at h; cases h
  · rw [herr] at h
    injection h with he
    exact he.symm

theorem parse_result_nodes_missing_name {node : XmlNode}
    (h : ∃ c ∈ childrenWithTag node NODE_RESULT_NODE,
        attributeNoNs c ATTR_NAME = none) :
    parse_result_nodes node = .error (.XmlExpectedMandatoryAttribute ATTR_NAME) := by
  rcases h with ⟨c, hmem, hc⟩
  rw [parse_result_nodes]
  exact mapExcept_error_of_mem (fun x _ => parse_result_node_entry_cases x)
    ⟨c, hmem, parse_result_node_entry_missing_name hc⟩

theorem parse_input_nodes_missing_name {node : XmlNode}
    (h : ∃ c ∈ childrenWithTag node NODE_INPUT_NODE,
        attributeNoNs c ATTR_NAME = none) :
    parse_input_nodes node = .error (.XmlExpectedMandatoryAttribute ATTR_NAME) := by
  rcases h with ⟨c, hmem, hc⟩
  rw [parse_input_nodes]
  exact mapExcept_error_of_mem (fun x _ => parse_input_node_entry_cases x)
    ⟨c, hmem, parse_input_node_entry_missing_name hc⟩

theorem parse_test_case_entry_ok_inv {tc : XmlNode} {y : TestCase}
    (h : parse_test_case_entry tc = .ok y) :
    (∃ i, parse_input_nodes tc = .ok i) ∧ (∃ r, parse_result_nodes tc = .ok r) := by
  rw [parse_test_case_entry] at h
  rcases except_bind_ok_inv h with ⟨d, _, h2⟩
  rcases except_bind_ok_inv h2 with ⟨i, hi, h3⟩
  rcases except_bind_ok_inv h3 with ⟨r, hr, _⟩
  exact ⟨⟨i, hi⟩, ⟨r, hr⟩⟩

theorem parse_test_case_entry_error {tc : XmlNode} {e : RunnerError}
    (h : parse_test_case_entry tc = .error e) :
    e = .XmlExpectedMandatoryAttribute ATTR_NAME := by
  rw [parse_test_case_entry] at h
  rcases optional_child_required_content_ok tc NODE_DESCRIPTION with ⟨d, hd⟩
  rw [hd, except_bind_ok] at h
  cases hi : parse_input_nodes tc with
  | error e2 =>
    rw [hi, except_bind_error] at h
    injection h with he
    subst he
    rcases mapExcept_error_mem hi with ⟨x, _, hxe⟩
    exact parse_input_node_entry_error hxe
  | ok i =>
    rw [hi, except_bind_ok] at h
    cases hr : parse_result_nodes tc with
    | error e2 =>
      rw [hr, except_bind_error] at h
      injection h with he
      subst he
      rcases mapExcept_error_mem hr with ⟨x, _, hxe⟩
      exact parse_result_node_entry_error hxe
    | ok r => rw [hr, except_bind_ok] at h; cases h

theorem parse_labels_error {node : XmlNode} {e : RunnerError}
    (h : parse_labels node = .error e) :
    e = .XmlExpectedMandatoryTextContent NODE_LABEL := by
  rw [parse_labels] at h
  cases hfind : childWithTag node NODE_LABELS with
  | none => rw [hfind] at h; cases h
  | some labels_node =>
    rw [hfind] at h
    rcases mapExcept_error_mem h with ⟨lb, hmem, hlb⟩
    have htag : lb.tagName = NODE_LABEL := by
      have := (List.mem_filter.mp hmem).2
      simpa using this
    rw [required_content_error hlb, htag]

theorem parse_root_node_error {node : XmlNode} {e : RunnerError}
    (h : parse_root_node node = .error e) :
    e = .XmlExpectedMandatoryTextContent NODE_LABEL ∨
    e = .XmlExpectedMandatoryAttribute ATTR_NAME := by
  rw [parse_root_node] at h
  rcases optional_child_required_content_ok node NODE_MODEL_NAME with ⟨m, hm⟩
  rw [hm, except_bind_ok] at h
  cases hl : parse_labels node with
  | error e2 =>
    rw [hl, except_bind_error] at h
    injection h with he
    subst he
    exact Or.inl (parse_labels_error hl)
  | ok ls =>
    rw [hl, except_bind_ok] at h
    cases ht : parse_test_cases node with
    | error e2 =>
      rw [ht, except_bind_error] at h
      injection h with he
      subst he
      rw [parse_test_cases] at ht
      rcases mapExcept_error_mem ht with ⟨x, _, hxe⟩
      exact Or.inr (parse_test_case_entry_error hxe)
    | ok tcs => rw [ht, except_bind_ok] at h; cases h

theorem parse_labels_label_no_text {node labels_node : XmlNode}
    (hfind : childWithTag node NODE_LABELS = some labels_node)
    (h : ∃ lb ∈ childrenWithTag labels_node NODE_LABEL, lb.textContent = none) :
    parse_labels node = .error (.XmlExpectedMandatoryTextContent NODE_LABEL) := by
  rcases h with ⟨lb, hmem, hlb⟩
  have htag : lb.tagName = NODE_LABEL := by
    have := (List.mem_filter.mp hmem).2
    simpa using this
  rw [parse_labels, hfind]
  apply mapExcept_error_of_mem
  · intro x hx
    cases htext : x.textContent with
    | some t => exact Or.inl ⟨t, by rw [required_content, htext]⟩
    | none =>
      refine Or.inr ?_
      have hxtag : x.tagName = NODE_LABEL := by
        have := (List.mem_filter.mp hx).2
        simpa using this
      rw [required_content, htext, hxtag]
  · refine ⟨lb, hmem, ?_⟩
    rw [required_content, hlb, htag]

/-! ## Claim C8 -/

/-- C8: an input node or a result node lacking the required `name`
attribute makes its extraction return `XmlExpectedMandatoryAttribute`
(the violation, wherever it sits in the child list, aborts with exactly
this error), and a fixture containing such a node yields no `TestCases`
value at all from `parse_from_string`. -/
theorem C8_missing_name_aborts :
    (∀ n : XmlNode, attributeNoNs n ATTR_NAME = none →
        required_attribute n ATTR_NAME =
          .error (.XmlExpectedMandatoryAttribute ATTR_NAME)) ∧
    (∀ node : XmlNode,
        (∃ c ∈ childrenWithTag node NODE_RESULT_NODE,
            attributeNoNs c ATTR_NAME = none) →
        parse_result_nodes node =
          .error (.XmlExpectedMandatoryAttribute ATTR_NAME)) ∧
    (∀ node : XmlNode,
        (∃ c ∈ childrenWithTag node NODE_INPUT_NODE,
            attributeNoNs c ATTR_NAME = none) →
        parse_input_nodes node =
          .error (.XmlExpectedMandatoryAttribute ATTR_NAME)) ∧
    (∀ document : XmlDocument,
        document.root_element.tagName = NODE_TEST_CASES →
        (∃ tc ∈ childrenWithTag document.root_element NODE_TEST_CASE,
            (∃ c ∈ childrenWithTag tc NODE_RESULT_NODE,
                attributeNoNs c ATTR_NAME = none) ∨
            (∃ c ∈ childrenWithTag tc NODE_INPUT_NODE,
                attributeNoNs c ATTR_NAME = none)) →
        ∀ ts, parse_from_string (.ok document) ≠ .ok ts) := by
  refine ⟨?_, ?_, ?_, ?_⟩
  · intro n h
    exact required_attribute_missing h
  · intro node h
    exact parse_result_nodes_missing_name h
  · intro node h
    exact parse_input_nodes_missing_name h
  · intro document hroot hbad ts hok
    rw [parse_from_string] at hok
    have hcond : (document.root_element.tagName != NODE_TEST_CASES) = false := by
      simp [hroot]
    rw [hcond] at hok
    simp only [Bool.false_eq_true, if_false] at hok
    rw [parse_root_node] at hok
    rcases except_bind_ok_inv hok with ⟨m, _, h2⟩
    rcases except_bind_ok_inv h2 with ⟨ls, _, h3⟩
    rcases except_bind_ok_inv h3 with ⟨tcs, htcs, _⟩
    rcases hbad with ⟨tc, hmem, hviol⟩
    rw [parse_test_cases] at htcs
    rcases mapExcept_ok_mem htcs hmem with ⟨y, hy⟩
    rcases parse_test_case_entry_ok_inv hy with ⟨⟨i, hi⟩, ⟨r, hr⟩⟩
    rcases hviol with hres | hinp
    · rw [parse_result_nodes_missing_name hres] at hr
      cases hr
    · rw [parse_input_nodes_missing_name hinp] at hi
      cases hi

/-- Witness for C8: a test case with a `resultNode` child that has no
`name` attribute makes result-node extraction fail with the
missing-mandatory-attribute error. -/
theorem C8_missing_name_aborts_witness :
    parse_result_nodes (.element "testCase" [] [.element "resultNode" [] []]) =
      .error (.XmlExpectedMandatoryAttribute "name") := by
  apply C8_missing_name_aborts.2.1
  refine ⟨.element "resultNode" [] [], ?_, rfl⟩
  rw [show childrenWithTag (.element "testCase" [] [.element "resultNode" [] []])
      NODE_RESULT_NODE = [.element "resultNode" [] []] from rfl]
  exact List.mem_singleton.mpr rfl

/-! ## Claim C9 -/

/-- C9: a present `modelName` or `description` child without text never
fails parsing — `optional_child_required_content` always returns `Ok`,
and returns `Ok(None)` for a present child with no text; the
missing-text error is raised only for `label` entries: a label without
text aborts label parsing with `XmlExpectedMandatoryTextContent`, and
that error constructor can reach the caller of `parse_from_string` only
carrying the `label` tag. -/
theorem C9_empty_text_only_fatal_for_labels :
    (∀ (node : XmlNode) (child_name : String),
        ∃ o, optional_child_required_content node child_name = .ok o) ∧
    (∀ (node : XmlNode) (child_name : String) (child_node : XmlNode),
        childWithTag node child_name = some child_node →
        child_node.textContent = none →
        optional_child_required_content node child_name = .ok none) ∧
    (∀ node labels_node : XmlNode,
        childWithTag node NODE_LABELS = some labels_node →
        (∃ lb ∈ childrenWithTag labels_node NODE_LABEL, lb.textContent = none) →
        parse_labels node = .error (.XmlExpectedMandatoryTextContent NODE_LABEL)) ∧
    (∀ (parsed : Except String XmlDocument) (s : String),
        parse_from_string parsed = .error (.XmlExpectedMandatoryTextContent s) →
        s = NODE_LABEL) := by
  refine ⟨optional_child_required_content_ok, ?_, ?_, ?_⟩
  · intro node child_name child_node h1 h2
    have hrc : required_content child_node =
        .error (.XmlExpectedMandatoryTextContent child_node.tagName) := by
      rw [required_content, h2]
    simp only [optional_child_required_content, h1, hrc]
  · intro node labels_node hfind h
    exact parse_labels_label_no_text hfind h
  · intro parsed s h
    cases parsed with
    | error reason => rw [parse_from_string] at h; simp at h
    | ok document =>
      rw [parse_from_string] at h
      by_cases hroot : (document.root_element.tagName != NODE_TEST_CASES) = true
      · rw [if_pos hroot] at h
        simp at h
      · rw [if_neg hroot] at h
        rcases parse_root_node_error h with hlab | hattr
        · exact congrArg
            (fun err => match err with
              | RunnerError.XmlExpectedMandatoryTextContent t => t
              | _ => NODE_LABEL) hlab
        · cases hattr

/-- Witness for C9: a present but empty `modelName` child parses to the
absent model name, not an error. -/
theorem C9_empty_text_only_fatal_for_labels_witness :
    optional_child_required_content
      (.element "testCases" [] [.element "modelName" [] []]) NODE_MODEL_NAME =
      .ok none :=
  C9_empty_text_only_fatal_for_labels.2.1
    (.element "testCases" [] [.element "modelName" [] []]) NODE_MODEL_NAME
    (.element "modelName" [] []) rfl rfl

/-! ## Claims C1 and C2 -/

/-- Outcome of the comparison path when both an expected value and an
actual wire value (here the encoding of a model value) are present. -/
theorem execute_test_outcome_both_present (e c : ValueType)
    (name : String) (err : Bool) :
    execute_test_outcome
      { name := name, error_result := err, typ := none, cast := none,
        expected := some e, computed := none }
      { data := some { value := some (valueDtoOfValue c) }, errors := none } =
      (if valueDtoBeq (valueDtoOfValue c) (valueDtoOfValue e) then
        TestOutcome.success
      else TestOutcome.failureActualNeExpected) := rfl

/-- When the expected and the (encoded) actual value differ, the outcome
is the mismatch failure. -/
theorem execute_test_outcome_mismatch {e c : ValueType} (hne : c ≠ e)
    (name : String) (err : Bool) :
    execute_test_outcome
      { name := name, error_result := err, typ := none, cast := none,
        expected := some e, computed := none }
      { data := some { value := some (valueDtoOfValue c) }, errors := none } =
      .failureActualNeExpected := by
  have hb : valueDtoBeq (valueDtoOfValue c) (valueDtoOfValue e) = false := by
    by_contra hcon
    rw [Bool.not_eq_false] at hcon
    exact hne (valueDtoOfValue_injective _ _ ((valueDtoBeq_iff_eq _ _).mp hcon))
  rw [execute_test_outcome_both_present, hb]
  simp

/-- C1 counterexample: the claim says that every result node with
`error_result = true` gets the verdict `ExpectedErrorObserved`,
regardless of the two values.  In the code the flag is parsed but never
consulted: below, two result nodes with `error_result = true` receive
two different outcomes (`failureNoActual` alias `FAILURE no actual
value`, and `success` alias `SUCCESS`) depending on the values alone,
and no expected-error outcome exists among the code's outcomes at all. -/
theorem C1_counterexample :
    (ResultNode.error_result
      { name := "r", error_result := true, typ := none, cast := none,
        expected := none, computed := none } = true) ∧
    execute_test_outcome
      { name := "r", error_result := true, typ := none, cast := none,
        expected := none, computed := none }
      { data := some { value := none }, errors := none } = .failureNoActual ∧
    (ResultNode.error_result
      { name := "r", error_result := true, typ := none, cast := none,
        expected := some (.Simple { typ := none, text := some "1", nil := false }),
        computed := none } = true) ∧
    execute_test_outcome
      { name := "r", error_result := true, typ := none, cast := none,
        expected := some (.Simple { typ := none, text := some "1", nil := false }),
        computed := none }
      { data := some { value := some (valueDtoOfValue
          (.Simple { typ := none, text := some "1", nil := false })) },
        errors := none } = .success ∧
    TestOutcome.failureNoActual ≠ TestOutcome.success := by
  refine ⟨rfl, rfl, rfl, ?_, by decide⟩
  rw [execute_test_outcome_both_present,
      (valueDtoBeq_iff_eq _ _).mpr rfl]
  simp

/-- C1 (amended): the `error_result` flag of a result node has no effect
on the verdict produced by `execute_tests` — every result node receives
exactly the outcome of the identical node with `error_result = false`;
the outcome is determined solely by the response data and the expected
value. -/
theorem C1_error_result_ignored (rn : ResultNode) (result : EvalResultDto) :
    execute_test_outcome rn result =
      execute_test_outcome { rn with error_result := false } result := rfl

/-- C2: when both an expected and a computed value are present, the
verdict is a match (`SUCCESS`) iff the two are structurally equal, type
tags included and text compared literally; two scalars with equal text
but different declared type tags mismatch, and `xsd:decimal` texts `1.0`
versus `1.00` mismatch — no numeric normalization. -/
theorem C2_match_iff_structural_equality :
    (∀ e c : ValueType,
        execute_test_outcome
          { name := "r", error_result := false, typ := none, cast := none,
            expected := some e, computed := none }
          { data := some { value := some (valueDtoOfValue c) }, errors := none } =
          .success ↔ c = e) ∧
    execute_test_outcome
      { name := "r", error_result := false, typ := none, cast := none,
        expected := some (.Simple { typ := some "xsd:string", text := some "1",
                                    nil := false }),
        computed := none }
      { data := some { value := some (valueDtoOfValue
          (.Simple { typ := some "xsd:decimal", text := some "1", nil := false })) },
        errors := none } = .failureActualNeExpected ∧
    execute_test_outcome
      { name := "r", error_result := false, typ := none, cast := none,
        expected := some (.Simple { typ := some "xsd:decimal", text := some "1.0",
                                    nil := false }),
        computed := none }
      { data := some { value := some (valueDtoOfValue
          (.Simple { typ := some "xsd:decimal", text := some "1.00", nil := false })) },
        errors := none } = .failureActualNeExpected := by
  refine ⟨?_, ?_, ?_⟩
  · intro e c
    by_cases hb : valueDtoBeq (valueDtoOfValue c) (valueDtoOfValue e) = true
    · have hce : c = e :=
        valueDtoOfValue_injective _ _ ((valueDtoBeq_iff_eq _ _).mp hb)
      rw [execute_test_outcome_both_present, hb]
      simp [hce]
    · have hne : ¬ c = e := fun hce =>
        hb (by rw [hce]; exact (valueDtoBeq_iff_eq _ _).mpr rfl)
      rw [execute_test_outcome_both_present]
      rw [Bool.not_eq_true] at hb
      rw [hb]
      simp [hne]
  · exact execute_test_outcome_mismatch
      (fun h => by injection h with hv; exact absurd hv (by decide)) "r" false
  · exact execute_test_outcome_mismatch
      (fun h => by injection h with hv; exact absurd hv (by decide)) "r" false

/-- Witness for C2: instantiating the match-iff-equality direction at a
concrete pair of equal scalars gives the `SUCCESS` outcome. -/
theorem C2_match_iff_structural_equality_witness :
    execute_test_outcome
      { name := "r", error_result := false, typ := none, cast := none,
        expected := some (.Simple { typ := some "xsd:string", text := some "Hello",
                                    nil := false }),
        computed := none }
      { data := some { value := some (valueDtoOfValue
          (.Simple { typ := some "xsd:string", text := some "Hello",
                     nil := false })) },
        errors := none } = .success :=
  (C2_match_iff_structural_equality.1
    (.Simple { typ := some "xsd:string", text := some "Hello", nil := false })
    (.Simple { typ := some "xsd:string", text := some "Hello", nil := false })).mpr
    rfl

/-! ## Claim C3 -/

/-- C3: for every Value of any of the three variants (Scalar/Simple,
Composite/Components, Sequence/List), including nested combinations,
encoding it to the wire form (`impl From<&Value> for ValueDto`) and
decoding that wire form back yields a Value structurally equal to the
original. -/
theorem C3_wire_roundtrip (v : ValueType) :
    valueOfValueDto (valueDtoOfValue v) = some v :=
  roundtrip_value v

/-! ## Claim C10 -/

/-- C10: value-shape resolution is total and never returns an error:
`parse_value_type` always returns `Ok` (some shape or none) — any error
produced while attempting one shape is discarded by the
`if let Ok(Some(..))` patterns and resolution falls through — and hence
`parse_child_value_type` never aborts a fixture either. -/
theorem C10_value_resolution_total :
    (∀ node : XmlNode, ∃ o, parse_value_type node = .ok o) ∧
    (∀ (node : XmlNode) (child_name : String),
        ∃ o, parse_child_value_type node child_name = .ok o) :=
  ⟨parse_value_type_ok, parse_child_value_type_ok⟩

/-! ## Claim C6 -/

/-- C6: test-case kind resolution maps the discriminator attribute value
`bkm` to `BusinessKnowledgeModel`, `decisionService` to
`DecisionService`, and any other value — absence of the attribute and
unrecognized strings included — to `Decision`; the function is total, so
no parse error is ever produced. -/
theorem C6_kind_resolution :
    (∀ node : XmlNode, optional_attribute node ATTR_TYPE = some "bkm" →
        parse_test_case_type node = .BusinessKnowledgeModel) ∧
    (∀ node : XmlNode, optional_attribute node ATTR_TYPE = some "decisionService" →
        parse_test_case_type node = .DecisionService) ∧
    (∀ (node : XmlNode) (s : String), optional_attribute node ATTR_TYPE = some s →
        s ≠ "bkm" → s ≠ "decisionService" →
        parse_test_case_type node = .Decision) ∧
    (∀ node : XmlNode, optional_attribute node ATTR_TYPE = none →
        parse_test_case_type node = .Decision) := by
  refine ⟨?_, ?_, ?_, ?_⟩
  · intro node h
    rw [parse_test_case_type, h]
    decide
  · intro node h
    rw [parse_test_case_type, h]
    decide
  · intro node s h hb hd
    rw [parse_test_case_type, h]
    split
    · next heq =>
      injection heq with hs
      exact absurd hs hb
    · next heq =>
      injection heq with hs
      exact absurd hs hd
    · rfl
  · intro node h
    rw [parse_test_case_type, h]

/-- Witness for C6: a test case whose discriminator attribute carries the
unrecognized value `unknown-future-kind` parses to kind `Decision`. -/
theorem C6_kind_resolution_witness :
    parse_test_case_type
      (.element "testCase" [⟨none, "type", "unknown-future-kind"⟩] []) = .Decision :=
  C6_kind_resolution.2.2.1
    (.element "testCase" [⟨none, "type", "unknown-future-kind"⟩] [])
    "unknown-future-kind" (by decide) (by decide) (by decide)

/-! ## Claim C7 -/

/-- C7: a well-formed document whose outermost element tag differs from
`testCases` makes `parse_from_string` return the
`XmlExpectedMandatoryNode` error with no `TestCases` produced — parsing
does not proceed past this check; and an input that fails to tokenize
makes it return a single `ParsingXMLFailed` error, again with no partial
`TestCases`. -/
theorem C7_root_tag_and_malformed :
    (∀ document : XmlDocument, document.root_element.tagName ≠ NODE_TEST_CASES →
        parse_from_string (.ok document) =
          .error (.XmlExpectedMandatoryNode NODE_TEST_CASES)) ∧
    (∀ reason : String, parse_from_string (.error reason) =
        .error (.ParsingXMLFailed reason)) := by
  constructor
  · intro document h
    rw [parse_from_string]
    have hb : (document.root_element.tagName != NODE_TEST_CASES) = true := by
      simpa [bne_iff_ne] using h
    rw [hb]
    rfl
  · intro reason
    rfl

/-- Witness for C7: a document with root tag `wrongRoot` yields the
`XmlExpectedMandatoryNode` error. -/
theorem C7_root_tag_witness :
    parse_from_string (.ok ⟨.element "wrongRoot" [] []⟩) =
      .error (.XmlExpectedMandatoryNode "testCases") :=
  C7_root_tag_and_malformed.1 ⟨.element "wrongRoot" [] []⟩ (by decide)

end DmnTckRs
